import Mathlib

/-!
Verification of the log-analysis core of the preset-management repository.

Python strings are modelled as lists of characters (`Str`).  Regular
expressions from the source are compiled by hand into deterministic
scanners over `Str`; each definition carries a comment naming the source
function it embeds.  Machine integers do not overflow in the modelled
code paths (Python integers are unbounded), so `Nat`/`Int` are used
directly.
-/

namespace PresetMgmt

/-- Python strings, modelled as lists of characters. -/
abbrev Str := List Char

/-- Coerce a Lean string literal to the `Str` model. -/
def pyStr (s : String) : Str := s.data

/-- The ASCII part of Python's whitespace class (regex class backslash-s,
and the characters stripped by str.strip / split by str.split). -/
def isPySpace (c : Char) : Bool :=
  c = ' ' || c = '\t' || c = '\n' || c = '\r' || c = '\x0b' || c = '\x0c'

/-- ASCII lowercasing, modelling str.lower() on the ASCII log text. -/
def asciiLower (c : Char) : Char :=
  if 'A' ≤ c && c ≤ 'Z' then Char.ofNat (c.toNat + 32) else c

/-- str.lower() over the whole string. -/
def lowerStr (l : Str) : Str := l.map asciiLower

/-- Python substring membership: needle occurs contiguously in hay
(the Python `in` operator on strings). -/
def containsSub (needle : Str) : Str → Bool
  | [] => needle.isEmpty
  | c :: t => needle.isPrefixOf (c :: t) || containsSub needle t

/-- Case-insensitive hex digit, the class [a-f0-9] under re.IGNORECASE. -/
def isHexChar (c : Char) : Bool :=
  ('0' ≤ c && c ≤ '9') || ('a' ≤ c && c ≤ 'f') || ('A' ≤ c && c ≤ 'F')

/-- ASCII digit, the regex class backslash-d. -/
def isDigitChar (c : Char) : Bool := '0' ≤ c && c ≤ '9'

/-- Numeric value of a digit character. -/
def digitVal (c : Char) : Nat := c.toNat - '0'.toNat

/-- Decimal value of a digit run (the int() applied to a matched group). -/
def natOfDigits (l : Str) : Nat := l.foldl (fun a c => a * 10 + digitVal c) 0

/-- Consume exactly n hex characters, returning the rest of the input. -/
def hexTake : Nat → Str → Option Str
  | 0, l => some l
  | _ + 1, [] => none
  | n + 1, c :: l => if isHexChar c then hexTake n l else none

/-- Consume one expected literal character. -/
def charTake (ch : Char) : Str → Option Str
  | [] => none
  | c :: l => if c = ch then some l else none

/-- Consume the 36-character UUID shape 8-4-4-4-12 (hex, case-insensitive),
returning the rest of the input (from the normalize_filepath regex in
src/services/log_analyzer.py and src/services/sast_log_analyzer.py). -/
def uuidAfter (l : Str) : Option Str := do
  let l ← hexTake 8 l
  let l ← charTake '-' l
  let l ← hexTake 4 l
  let l ← charTake '-' l
  let l ← hexTake 4 l
  let l ← charTake '-' l
  let l ← hexTake 4 l
  let l ← charTake '-' l
  hexTake 12 l

/-- Whether a UUID-shaped segment starts at the head of the string. -/
def uuidStart (l : Str) : Bool := (uuidAfter l).isSome

/-- Number of positions at which a UUID-shaped segment starts. -/
def uuidCount : Str → Nat
  | [] => 0
  | c :: cs => (if uuidStart (c :: cs) then 1 else 0) + uuidCount cs

/-- The candidate capture of the trailing group (.+)$: the dollar anchor
also matches just before a single final newline, and the dot class
excludes newlines, so a trailing newline is left out of the capture. -/
def groupEnd (r : Str) : Str :=
  if r.getLast? = some '\n' then r.dropLast else r

/-- One attempt of the normalize_filepath regex at the current position:
UUID, then a slash, then the captured group (.+)$ — which must be
non-empty and newline-free, with $ also accepting the position before a
single trailing newline. -/
def matchAt (l : Str) : Option Str :=
  match uuidAfter l with
  | none => none
  | some rest =>
    match charTake '/' rest with
    | none => none
    | some r =>
      if !(groupEnd r).isEmpty && !((groupEnd r).contains '\n') then some (groupEnd r)
      else none

/-- re.search of the normalize_filepath pattern: the lazy .*? together
with search semantics yield the leftmost position with a full match. -/
def searchUUID : Str → Option Str
  | [] => none
  | c :: cs =>
    match matchAt (c :: cs) with
    | some g => some g
    | none => searchUUID cs

/-- Backslash-to-slash normalization applied characterwise. -/
def replSlash (c : Char) : Char := if c = '\\' then '/' else c

/-- normalize_filepath from src/services/log_analyzer.py lines 6-21 (and
the identical copy in src/services/sast_log_analyzer.py): normalize
slashes, then return the capture after the first UUID segment if the
regex matches, else the slash-normalized path. -/
def normalize_filepath (s : Str) : Str :=
  let path := s.map replSlash
  match searchUUID path with
  | some g => g
  | none => path

/-! ## Incremental-scan extraction (log_analyzer / sast_log_analyzer) -/

/-- The incremental-scan facet of the scan_info dictionary.  The header
metadata keys (version, hostname, processors, os, ...) are written to
unrelated dictionary slots and never interact with these three flags;
they are not modelled. -/
structure IncInfo where
  is_incremental : Bool
  incremental_files_changed : Option Nat
  incremental_skipped : Bool
  deriving DecidableEq

/-- Initial flag state set by both extractors before their scan loops. -/
def incInit : IncInfo :=
  { is_incremental := false, incremental_files_changed := none, incremental_skipped := false }

/-- Marker substring for the incremental state (both extractors). -/
def stateMarker : Str := pyStr "in Incremental Scan State"

/-- Marker substring guarding the files-changed count (both extractors). -/
def countLineMarker : Str := pyStr "Incremental Scan: number of files changed:"

/-- One attempt of the regex pattern (number of files changed, colon,
optional whitespace, digit run) at the current position.  The scanner is
deterministic: the whitespace and digit classes are disjoint, so greedy
matching never backtracks. -/
def matchCountAt (l : Str) : Option Nat :=
  if (pyStr "number of files changed:").isPrefixOf l then
    let rest := l.drop (pyStr "number of files changed:").length
    let ds := (rest.dropWhile isPySpace).takeWhile isDigitChar
    if ds.isEmpty then none else some (natOfDigits ds)
  else none

/-- re.search of the files-changed pattern: leftmost full match. -/
def findCount : Str → Option Nat
  | [] => none
  | c :: cs =>
    match matchCountAt (c :: cs) with
    | some n => some n
    | none => findCount cs

/-- One attempt of the alternative SAST pattern (digit run, optional
whitespace, the words changed files, case-insensitive) at the current
position.  Only the maximal digit run can succeed, since a shortened run
is followed by a digit which matches neither the whitespace class nor
the literal. -/
def matchChangedAt (l : Str) : Option Nat :=
  let ds := l.takeWhile isDigitChar
  if ds.isEmpty then none
  else
    let rest := (l.drop ds.length).dropWhile isPySpace
    if (pyStr "changed files").isPrefixOf (lowerStr rest) then some (natOfDigits ds) else none

/-- re.search of the alternative pattern: leftmost full match. -/
def findChanged : Str → Option Nat
  | [] => none
  | c :: cs =>
    match matchChangedAt (c :: cs) with
    | some n => some n
    | none => findChanged cs

/-- Per-line body of the incremental loop of extract_scan_info
(src/services/log_analyzer.py lines 92-102): the state marker sets
is_incremental; a found count overwrites incremental_files_changed and
sets incremental_skipped when the count is zero (never resetting it). -/
def engineIncStep (si : IncInfo) (line : Str) : IncInfo :=
  let si1 := if containsSub stateMarker line then { si with is_incremental := true } else si
  if containsSub countLineMarker line then
    match findCount line with
    | some n =>
      { si1 with incremental_files_changed := some n,
                 incremental_skipped := if n = 0 then true else si1.incremental_skipped }
    | none => si1
  else si1

/-- extract_scan_info from src/services/log_analyzer.py lines 72-104,
restricted to the incremental-scan facet (lines 87-104). -/
def extract_scan_info (lines : List Str) : IncInfo :=
  lines.foldl engineIncStep incInit

/-- The join used by extract_sast_scan_info for its whole-log substring
checks (newline-joined line list). -/
def joinNL : List Str → Str
  | [] => []
  | [l] => l
  | l :: ls => l ++ '\n' :: joinNL ls

/-- Per-line body of the count loop of extract_sast_scan_info
(src/services/sast_log_analyzer.py lines 120-136): the primary pattern
block runs first, then the alternative changed-files block on the
(possibly updated) state of the same iteration.  Both blocks set
is_incremental and overwrite the count; incremental_skipped is set when
the count is zero and never reset. -/
def sastIncStep (si : IncInfo) (line : Str) : IncInfo :=
  let si1 :=
    if containsSub countLineMarker line then
      match findCount line with
      | some n =>
        { is_incremental := true,
          incremental_files_changed := some n,
          incremental_skipped := if n = 0 then true else si.incremental_skipped }
      | none => si
    else si
  if containsSub (pyStr "changed files") (lowerStr line) &&
     containsSub (pyStr "incremental") (lowerStr line) then
    match findChanged line with
    | some n =>
      { is_incremental := true,
        incremental_files_changed := some n,
        incremental_skipped := if n = 0 then true else si1.incremental_skipped }
    | none => si1
  else si1

/-- extract_sast_scan_info from src/services/sast_log_analyzer.py lines
44-138, restricted to the incremental-scan facet (lines 102-137): the
whole-log marker checks initialise is_incremental, then the count loop
runs over every line.  Header metadata keys are unrelated slots and are
not modelled. -/
def extract_sast_scan_info (lines : List Str) : IncInfo :=
  let full_log := joinNL lines
  let inc0 : Bool := containsSub stateMarker full_log
  let inc1 : Bool :=
    if containsSub (pyStr "Starting regular scan") full_log then
      inc0 || containsSub (pyStr "IncrementalFiles.cx exists:True") full_log
    else inc0
  lines.foldl sastIncStep { incInit with is_incremental := inc1 }

/-- The count one line contributes in extract_scan_info (the guarded
regex search of the count loop). -/
def engineLineCount (l : Str) : Option Nat :=
  if containsSub countLineMarker l then findCount l else none

/-- The sequence of counts reported by the lines, in the scan order of
extract_scan_info (used to state the corrected last-write-wins and
sticky-skip behaviour). -/
def engineCounts (lines : List Str) : List Nat :=
  lines.filterMap engineLineCount

/-- The counts one line contributes in extract_sast_scan_info, in block
order (primary pattern first, then the alternative pattern). -/
def sastLineCounts (l : Str) : List Nat :=
  (if containsSub countLineMarker l then (findCount l).toList else []) ++
  (if containsSub (pyStr "changed files") (lowerStr l) &&
      containsSub (pyStr "incremental") (lowerStr l)
   then (findChanged l).toList else [])

/-- All counts in extract_sast_scan_info scan order. -/
def sastCounts (lines : List Str) : List Nat := (lines.map sastLineCounts).flatten

/-! ## Format detection (log_comparator.detect_log_type) -/

/-- The three classification results of detect_log_type. -/
inductive LogType
  | cxone_sast
  | cxsast
  | cxone
  deriving DecidableEq

/-- str.split with separator newline (Python content.split), producing at
least one part and keeping empty parts. -/
def splitNL : Str → List Str
  | [] => [[]]
  | c :: cs =>
    if c = '\n' then [] :: splitNL cs
    else
      match splitNL cs with
      | [] => [[c]]
      | l :: ls => (c :: l) :: ls

/-- Number of newline characters (the number of complete lines). -/
def countNL : Str → Nat
  | [] => 0
  | c :: cs => (if c = '\n' then 1 else 0) + countNL cs

/-- The decision body of detect_log_type on the joined 150-line sample
(src/services/log_comparator.py lines 21-60), with the checks in source
order: shared engine-grammar signature first (splitting cloud vs on-prem
by the secondary markers), then the on-prem service name, then the
generic cloud-product tokens, defaulting to the generic cloud type. -/
def detectSample (sample : Str) : LogType :=
  let fmt :=
    containsSub (pyStr "Available memory:") sample &&
    containsSub (pyStr "Used memory:") sample &&
    containsSub (pyStr "Elapsed Time:") sample
  if fmt then
    let cloud :=
      containsSub (pyStr "sast-engine-worker") (lowerStr sample) ||
      containsSub (pyStr "OS: Unix") sample ||
      containsSub (pyStr "OS: Linux") sample ||
      containsSub (pyStr "/app/Engine") sample ||
      containsSub (pyStr "kubernetes.io") sample ||
      containsSub (pyStr "/usr/share/dotnet") sample
    if cloud then LogType.cxone_sast else LogType.cxsast
  else if containsSub (pyStr "Checkmarx Engine Service") sample then LogType.cxsast
  else if containsSub (pyStr "CxOne") sample || containsSub (pyStr "cx-one") (lowerStr sample) then
    LogType.cxone
  else if containsSub (pyStr "ast-sast") (lowerStr sample) then LogType.cxone
  else if containsSub (pyStr "INFO  QueryResolver") sample then LogType.cxone
  else if containsSub (pyStr "Starting Query:") sample then LogType.cxone
  else LogType.cxone

/-- detect_log_type from src/services/log_comparator.py lines 9-60: the
signature checks run on the newline-join of the first 150 lines. -/
def detect_log_type (content : Str) : LogType :=
  detectSample (joinNL ((splitNL content).take 150))

/-! ## Scan-mode labels (log_comparator.normalize_analysis) -/

/-- Decimal rendering of a count, as Python string interpolation does. -/
def natToCharsAux : Nat → Nat → Str
  | 0, _ => []
  | fuel + 1, n =>
    if n < 10 then [Char.ofNat ('0'.toNat + n)]
    else natToCharsAux fuel (n / 10) ++ [Char.ofNat ('0'.toNat + n % 10)]

/-- Decimal rendering of a count, as Python string interpolation does. -/
def natToChars (n : Nat) : Str := natToCharsAux (n + 1) n

/-- The scan-mode label computation of the engine branch of
normalize_analysis (src/services/log_comparator.py lines 87-96). -/
def engineBranchScanMode (skipped is_inc : Bool) (files_changed : Option Nat) : Str :=
  if skipped then pyStr "Incremental (Skipped - 0 changes)"
  else if is_inc then
    match files_changed with
    | some n => pyStr "Incremental (" ++ natToChars n ++ pyStr " files changed)"
    | none => pyStr "Incremental"
  else pyStr "Full Scan"

/-- The scan-mode label computation of the generic branch of
normalize_analysis (src/services/log_comparator.py lines 133-142). -/
def genericBranchScanMode (skipped is_inc : Bool) (files_changed : Option Nat) : Str :=
  if skipped then pyStr "Incremental (Skipped - 0 changes)"
  else if is_inc then
    match files_changed with
    | some n => pyStr "Incremental (" ++ natToChars n ++ pyStr " files changed)"
    | none => pyStr "Incremental"
  else pyStr "Full Scan"

/-- Follows the spec's words (section 4.5): the label is computed from
the three incremental flags with precedence skipped, then
incremental-with-count, then incremental-unknown-count, then full. -/
def specScanModeLabel (skipped is_inc : Bool) (files_changed : Option Nat) : Str :=
  if skipped then pyStr "Incremental (Skipped - 0 changes)"
  else if is_inc && files_changed.isSome then
    pyStr "Incremental (" ++ natToChars (files_changed.getD 0) ++ pyStr " files changed)"
  else if is_inc then pyStr "Incremental"
  else pyStr "Full Scan"

/-! ## Comparison (log_comparator.compare_logs) -/

/-- The fields of a normalized analysis read by compare_logs.  The query
map and error list feed only the queries_diff / errors_diff components,
which no claim references; they are not modelled. -/
structure NormalizedAnalysis where
  log_type : Str
  project_name : Str
  scan_mode : Str
  total_time : Str
  files_count : Int
  queries_count : Int
  total_results : Int
  errors_count : Int
  loc : Int
  peak_memory : Int
  files : List Str
  deriving DecidableEq

/-- The summary block of compare_logs.  Python tuples of numbers are
modelled as integer lists so that the tuple arity is observable; string
tuples are modelled as pairs. -/
structure Summary where
  log_type : Str × Str
  project_name : Str × Str
  scan_mode : Str × Str
  total_time : Str × Str
  files_count : List Int
  queries_count : List Int
  total_results : List Int
  errors_count : List Int
  loc : List Int
  peak_memory : List Int
  deriving DecidableEq

/-- The files_diff block of compare_logs. -/
structure FilesDiff where
  only_in_1 : List Str
  only_in_2 : List Str
  in_both : List Str
  deriving DecidableEq

/-- The comparison record; the queries_diff and errors_diff components
are not referenced by any claim and are not modelled. -/
structure ComparisonResult where
  summary : Summary
  files_diff : FilesDiff
  deriving DecidableEq

/-- get_filename from compare_logs: normalize slashes and keep the part
after the last slash (str.split on slash, last element). -/
def get_filename (p : Str) : Str :=
  (((p.map replSlash).reverse.takeWhile (fun c => c != '/')).reverse)

/-- Insertion-ordered dictionary update with last-write-wins (a Python
dict comprehension building filename to path). -/
def dictInsert (k v : Str) : List (Str × Str) → List (Str × Str)
  | [] => [(k, v)]
  | (k0, v0) :: rest =>
    if k0 = k then (k0, v) :: rest else (k0, v0) :: dictInsert k v rest

/-- The filename-to-path dictionary built by compare_logs from one side's
file set; the model iterates the file list in order, matching the
deterministic iteration of the modelled set. -/
def filesByName (files : List Str) : List (Str × Str) :=
  files.foldl (fun d f => dictInsert (get_filename f) f d) []

/-- The key view of a dictionary (Python dict keys, no duplicates). -/
def dictKeys (d : List (Str × Str)) : List Str := d.map Prod.fst

/-- Dictionary lookup with an (unreachable) empty default. -/
def dictGetD (d : List (Str × Str)) (k : Str) : Str :=
  ((d.find? (fun kv => kv.fst == k)).map Prod.snd).getD []

/-- Set difference on key lists. -/
def keyDiff (a b : List Str) : List Str := a.filter (fun k => !(b.contains k))

/-- Set intersection on key lists. -/
def keyInter (a b : List Str) : List Str := a.filter (fun k => b.contains k)

/-- Lexicographic string order by code point, as Python sorted uses. -/
def strLe : Str → Str → Bool
  | [], _ => true
  | _ :: _, [] => false
  | a :: as, b :: bs => if a = b then strLe as bs else decide (a < b)

/-- Sorted insertion for the ascending sort below. -/
def insertSorted (x : Str) : List Str → List Str
  | [] => [x]
  | y :: ys => if strLe x y then x :: y :: ys else y :: insertSorted x ys

/-- Ascending sort of path lists (Python sorted). -/
def sortStr (l : List Str) : List Str := l.foldr insertSorted []

/-- compare_logs from src/services/log_comparator.py lines 178-252,
restricted to the summary block (lines 188-199) and the files_diff block
(lines 201-220): every summary entry pairs the two sides' values with no
delta component; files are matched by basename and reported as the full
path owned by the side's basename dictionary. -/
def compare_logs (norm1 norm2 : NormalizedAnalysis) : ComparisonResult :=
  let files1_by_name := filesByName norm1.files
  let files2_by_name := filesByName norm2.files
  let files1_names := dictKeys files1_by_name
  let files2_names := dictKeys files2_by_name
  { summary :=
    { log_type := (norm1.log_type, norm2.log_type)
      project_name := (norm1.project_name, norm2.project_name)
      scan_mode := (norm1.scan_mode, norm2.scan_mode)
      total_time := (norm1.total_time, norm2.total_time)
      files_count := [norm1.files_count, norm2.files_count]
      queries_count := [norm1.queries_count, norm2.queries_count]
      total_results := [norm1.total_results, norm2.total_results]
      errors_count := [norm1.errors_count, norm2.errors_count]
      loc := [norm1.loc, norm2.loc]
      peak_memory := [norm1.peak_memory, norm2.peak_memory] }
    files_diff :=
    { only_in_1 := sortStr ((keyDiff files1_names files2_names).map (dictGetD files1_by_name))
      only_in_2 := sortStr ((keyDiff files2_names files1_names).map (dictGetD files2_by_name))
      in_both := sortStr ((keyInter files1_names files2_names).map (dictGetD files1_by_name)) } }

/-! ## Line parsers and analyzers (log_analyzer / dast_log_analyzer) -/

/-- Consume exactly n digit characters. -/
def takeDigitsN : Nat → Str → Option Str
  | 0, l => some l
  | _ + 1, [] => none
  | n + 1, c :: l => if isDigitChar c then takeDigitsN n l else none

/-- Consume a literal regex fragment. -/
def dropLit (lit l : Str) : Option Str :=
  if lit.isPrefixOf l then some (l.drop lit.length) else none

/-- Greedy one-or-more capture over a character class; deterministic in
every use below because the following pattern piece starts with a
character outside the class. -/
def classPlus (p : Char → Bool) (l : Str) : Option (Str × Str) :=
  let ds := l.takeWhile p
  if ds.isEmpty then none else some (ds, l.drop ds.length)

/-- The word-character class of the regexes (ASCII model of backslash-w). -/
def isWordChar (c : Char) : Bool := c.isAlphanum || c = '_'

/-- The elapsed-time class of the engine regex (digits, colon, dot). -/
def isElapsedChar (c : Char) : Bool := isDigitChar c || c = ':' || c = '.'

/-- The final captured group (.*)$ of the line regexes: everything to
the end of the input; a newline is tolerated only as a single final
character, matched after the group by the dollar anchor. -/
def dotStarEnd (l : Str) : Option Str :=
  if l.contains '\n' then
    if l.getLast? = some '\n' && !(l.dropLast.contains '\n') then some l.dropLast else none
  else some l

/-- str.strip() with the ASCII whitespace model. -/
def pyStrip (l : Str) : Str :=
  ((l.dropWhile isPySpace).reverse.dropWhile isPySpace).reverse

/-- The time-of-day shape shared by both timestamp regex fragments
(hours, minutes, seconds, comma, millis). -/
def tsTime (l : Str) : Option Str := do
  let r ← takeDigitsN 2 l
  let r ← charTake ':' r
  let r ← takeDigitsN 2 r
  let r ← charTake ':' r
  let r ← takeDigitsN 2 r
  let r ← charTake ',' r
  takeDigitsN 3 r

/-- The engine timestamp shape (day/month/year then time of day);
returns the rest of the input after the 23 consumed characters. -/
def tsEngine (l : Str) : Option Str := do
  let r ← takeDigitsN 2 l
  let r ← charTake '/' r
  let r ← takeDigitsN 2 r
  let r ← charTake '/' r
  let r ← takeDigitsN 4 r
  let r ← charTake ' ' r
  tsTime r

/-- The regex fragment shared by both line grammars after the timestamp:
a space, the bracketed thread, a space, the level word, then the
one-or-more whitespace run.  Returns the thread and level captures and
the rest of the input. -/
def threadLevel (r : Str) : Option (Str × Str × Str) := do
  let r ← charTake ' ' r
  let r ← charTake '[' r
  let (thread, r) ← classPlus (fun c => c != ']') r
  let r ← charTake ']' r
  let r ← charTake ' ' r
  let (level, r) ← classPlus isWordChar r
  let (_, r) ← classPlus isPySpace r
  pure (thread, level, r)

/-- The memory and elapsed-time fragment of the engine grammar. -/
def memPart (r : Str) : Option (Nat × Nat × Str × Str) := do
  let r ← dropLit (pyStr "Available memory: ") r
  let (avail, r) ← classPlus isDigitChar r
  let r ← dropLit (pyStr " Used memory: ") r
  let (used, r) ← classPlus isDigitChar r
  let r ← dropLit (pyStr " Elapsed Time: ") r
  let (elapsed, r) ← classPlus isElapsedChar r
  pure (natOfDigits avail, natOfDigits used, elapsed, r)

/-- The bracketed phase and final message fragment of the engine
grammar. -/
def phaseMsg (r : Str) : Option (Str × Str) := do
  let r ← charTake ' ' r
  let r ← charTake '[' r
  let (phase, r) ← classPlus (fun c => c != ']') r
  let r ← charTake ']' r
  let r ← dropLit (pyStr " - ") r
  let msg ← dotStarEnd r
  pure (phase, msg)

/-- A parsed engine log line (the dictionary built by parse_log_line). -/
structure LogLine where
  timestamp : Str
  thread : Str
  level : Str
  available_memory : Nat
  used_memory : Nat
  elapsed_time : Str
  phase : Str
  message : Str
  deriving DecidableEq

/-- parse_log_line from src/services/log_analyzer.py lines 24-41: the
anchored engine-grammar regex, compiled into a deterministic scanner
(each greedy class is followed by a character outside the class, so no
backtracking can occur).  The timestamp group is the first 23 characters
it consumed; only the message group is stripped. -/
def parse_log_line (line : Str) : Option LogLine := do
  let r ← tsEngine line
  let (thread, level, r) ← threadLevel r
  let (avail, used, elapsed, r) ← memPart r
  let (phase, msg) ← phaseMsg r
  pure { timestamp := line.take 23, thread := thread, level := level,
         available_memory := avail, used_memory := used,
         elapsed_time := elapsed, phase := phase, message := pyStrip msg }

/-- The per-line accumulator of analyze_log: parsed-line count, error
list, warning list (in loop order). -/
def analyzeStep (acc : Nat × List LogLine × List LogLine) (line : Str) :
    Nat × List LogLine × List LogLine :=
  match parse_log_line line with
  | none => acc
  | some p =>
    if p.level = pyStr "ERROR" then (acc.1 + 1, acc.2.1 ++ [p], acc.2.2)
    else if p.level = pyStr "WARN" then (acc.1 + 1, acc.2.1, acc.2.2 ++ [p])
    else (acc.1 + 1, acc.2.1, acc.2.2)

/-- The result facets of analyze_log referenced by the claims.  The
remaining facets (queries_run, files_processed, phases, memory_timeline,
scan_info) are independent accumulators of the same loop and are not
modelled. -/
structure Analysis where
  total_lines : Nat
  parsed_lines : Nat
  errors : List LogLine
  warnings : List LogLine

/-- analyze_log from src/services/log_analyzer.py lines 107-161,
restricted to the claim-relevant facets: split into lines, parse each
line, count the parses, and collect ERROR / WARN records in order. -/
def analyze_log (content : Str) : Analysis :=
  let lines := splitNL content
  let r := lines.foldl analyzeStep (0, [], [])
  { total_lines := lines.length, parsed_lines := r.1, errors := r.2.1, warnings := r.2.2 }

/-- A parsed DAST (ZAP) log line. -/
structure DastLogLine where
  timestamp : Str
  thread : Str
  level : Str
  className : Str
  message : Str
  deriving DecidableEq

/-- The DAST timestamp shape (year-month-day then time of day). -/
def tsDast (l : Str) : Option Str := do
  let r ← takeDigitsN 4 l
  let r ← charTake '-' r
  let r ← takeDigitsN 2 r
  let r ← charTake '-' r
  let r ← takeDigitsN 2 r
  let r ← charTake ' ' r
  tsTime r

/-- The class-name and final message fragment of the DAST grammar: a
non-space run, the space-dash-space separator, then the final group. -/
def clsMsg (r : Str) : Option (Str × Str) := do
  let (cls, r) ← classPlus (fun c => !isPySpace c) r
  let r ← dropLit (pyStr " - ") r
  let msg ← dotStarEnd r
  pure (cls, msg)

/-- parse_dast_log_line from src/services/dast_log_analyzer.py lines
6-20: timestamp, bracketed thread (stripped), level word, a non-space
class-name run, a space-dash-space separator, and the stripped message. -/
def parse_dast_log_line (line : Str) : Option DastLogLine := do
  let r ← tsDast line
  let (thread, level, r) ← threadLevel r
  let (cls, msg) ← clsMsg r
  pure { timestamp := line.take 23, thread := pyStrip thread, level := level,
         className := cls, message := pyStrip msg }

/-- The per-line accumulator of analyze_dast_log (same shape as the
engine loop). -/
def dastStep (acc : Nat × List DastLogLine × List DastLogLine) (line : Str) :
    Nat × List DastLogLine × List DastLogLine :=
  match parse_dast_log_line line with
  | none => acc
  | some p =>
    if p.level = pyStr "ERROR" then (acc.1 + 1, acc.2.1 ++ [p], acc.2.2)
    else if p.level = pyStr "WARN" then (acc.1 + 1, acc.2.1, acc.2.2 ++ [p])
    else (acc.1 + 1, acc.2.1, acc.2.2)

/-- The result facets of analyze_dast_log referenced by the claims. -/
structure DastAnalysis where
  total_lines : Nat
  parsed_lines : Nat
  errors : List DastLogLine
  warnings : List DastLogLine

/-- analyze_dast_log from src/services/dast_log_analyzer.py lines
141-191, restricted to the claim-relevant facets (the scan_info, jobs,
rule and add-on extractions are independent passes and not modelled). -/
def analyze_dast_log (content : Str) : DastAnalysis :=
  let lines := splitNL content
  let r := lines.foldl dastStep (0, [], [])
  { total_lines := lines.length, parsed_lines := r.1, errors := r.2.1, warnings := r.2.2 }

/-! ## Query totals (sast_log_analyzer.extract_query_totals) -/

/-- str.split() with no separator: split on whitespace runs, dropping
empty tokens. -/
def splitWSAux : Str → Str → List Str
  | [], acc => if acc.isEmpty then [] else [acc.reverse]
  | c :: cs, acc =>
    if isPySpace c then
      if acc.isEmpty then splitWSAux cs [] else acc.reverse :: splitWSAux cs []
    else splitWSAux cs (c :: acc)

/-- str.split() with no separator: split on whitespace runs, dropping
empty tokens. -/
def pySplitWS (l : Str) : List Str := splitWSAux l []

/-- Digit tail of a Python integer literal: digits with single
underscores allowed between digit groups. -/
def pyDigitsAux : Str → Nat → Option Nat
  | [], acc => some acc
  | '_' :: c :: cs, acc =>
    if isDigitChar c then pyDigitsAux cs (acc * 10 + digitVal c) else none
  | ['_'], _ => none
  | c :: cs, acc => if isDigitChar c then pyDigitsAux cs (acc * 10 + digitVal c) else none

/-- Unsigned part of int(): a leading digit then the underscore-digit
grammar. -/
def pyIntCore (l : Str) : Option Int :=
  match l with
  | c :: cs => if isDigitChar c then (pyDigitsAux cs (digitVal c)).map Int.ofNat else none
  | [] => none

/-- Python int() on a string: optional surrounding whitespace, optional
sign, digits with single underscores; anything else raises (modelled as
none). -/
def pyInt (l : Str) : Option Int :=
  match pyStrip l with
  | '+' :: r => pyIntCore r
  | '-' :: r => (pyIntCore r).map (fun n => -n)
  | r => pyIntCore r

/-- The totals record of extract_query_totals. -/
structure QueryTotals where
  total_results : Int
  total_query_time : Str
  deriving DecidableEq

/-- The defaults assigned before the totals loop. -/
def totalsInit : QueryTotals :=
  { total_results := 0, total_query_time := pyStr "00:00:00" }

/-- Per-line body of extract_query_totals (src/services/
sast_log_analyzer.py lines 318-327): on a stripped line starting with
the Total marker and having at least three whitespace tokens, int() of
the second token is attempted; if it raises, neither field is assigned
(the second assignment is guarded by the first in the same try block). -/
def totalsStep (t : QueryTotals) (line : Str) : QueryTotals :=
  if (pyStr "Total:").isPrefixOf (pyStrip line) then
    let parts := pySplitWS line
    if 3 ≤ parts.length then
      match pyInt (parts.getD 1 []) with
      | some n => { total_results := n, total_query_time := parts.getD 2 [] }
      | none => t
    else t
  else t

/-- extract_query_totals from src/services/sast_log_analyzer.py lines
311-329. -/
def extract_query_totals (lines : List Str) : QueryTotals :=
  lines.foldl totalsStep totalsInit

/-- A line that actually updates the totals: it passes the marker check,
has at least three tokens, and its second token parses as an integer. -/
def totalsEffective (line : Str) : Bool :=
  (pyStr "Total:").isPrefixOf (pyStrip line) &&
  decide (3 ≤ (pySplitWS line).length) &&
  (pyInt ((pySplitWS line).getD 1 [])).isSome



/-! ## Helper lemmas -/

theorem getLast?_cons_or {α} (a : α) (t : List α) :
    (a :: t).getLast? = t.getLast?.or (some a) := by
  cases t with
  | nil => rfl
  | cons b t =>
    rw [List.getLast?_cons_cons]
    cases h : (b :: t).getLast? with
    | none => simp at h
    | some c => rfl

theorem getLast?_append_or {α} (xs ys : List α) :
    (xs ++ ys).getLast? = ys.getLast?.or xs.getLast? := by
  induction xs with
  | nil => simp
  | cons a xs ih =>
    rw [List.cons_append, getLast?_cons_or, ih, getLast?_cons_or, Option.or_assoc]

/-- Behaviour of one engine-loop iteration on the files-changed slot. -/
theorem engineIncStep_ifc (si : IncInfo) (l : Str) :
    (engineIncStep si l).incremental_files_changed =
      (engineLineCount l).or si.incremental_files_changed := by
  unfold engineIncStep engineLineCount
  by_cases h1 : containsSub stateMarker l = true <;>
    by_cases h2 : containsSub countLineMarker l = true <;>
      cases hfc : findCount l <;> simp [h1, h2, hfc, Option.or]

/-- Behaviour of one engine-loop iteration on the skipped flag. -/
theorem engineIncStep_skip (si : IncInfo) (l : Str) :
    (engineIncStep si l).incremental_skipped =
      (si.incremental_skipped || ((engineLineCount l).toList.any (fun n => n == 0))) := by
  unfold engineIncStep engineLineCount
  by_cases h1 : containsSub stateMarker l = true <;>
    by_cases h2 : containsSub countLineMarker l = true <;>
      cases hfc : findCount l with
      | none => simp [h1, h2, hfc]
      | some n =>
        by_cases hn : n = 0 <;> simp [h1, h2, hfc, hn]

/-- Behaviour of one SAST-loop iteration on the files-changed slot. -/
theorem sastIncStep_ifc (si : IncInfo) (l : Str) :
    (sastIncStep si l).incremental_files_changed =
      ((sastLineCounts l).getLast?).or si.incremental_files_changed := by
  unfold sastIncStep sastLineCounts
  by_cases h1 : containsSub countLineMarker l = true <;>
    by_cases h2 : (containsSub (pyStr "changed files") (lowerStr l) &&
        containsSub (pyStr "incremental") (lowerStr l)) = true <;>
      cases hfc : findCount l <;> cases hch : findChanged l <;>
        simp [h1, h2, hfc, hch, getLast?_cons_or, Option.or]

theorem decide_eq_beq (n m : Nat) : decide (n = m) = (n == m) := by
  by_cases h : n = m <;> simp [h]

/-- Behaviour of one SAST-loop iteration on the skipped flag. -/
theorem sastIncStep_skip (si : IncInfo) (l : Str) :
    (sastIncStep si l).incremental_skipped =
      (si.incremental_skipped || ((sastLineCounts l).any (fun n => n == 0))) := by
  unfold sastIncStep sastLineCounts
  by_cases h1 : containsSub countLineMarker l = true <;>
    by_cases h2 : (containsSub (pyStr "changed files") (lowerStr l) &&
        containsSub (pyStr "incremental") (lowerStr l)) = true <;>
      cases hfc : findCount l <;> cases hch : findChanged l <;>
        simp [h1, h2, hfc, hch, decide_eq_beq, Bool.or_comm, Bool.or_assoc, Bool.or_left_comm]

/-- Generic fold specification: a loop whose single step pushes the
per-line counts with last-write-wins and a sticky zero flag computes the
last count and the any-zero disjunction over the whole line list. -/
theorem incFold_spec (step : IncInfo → Str → IncInfo) (cnt : Str → List Nat)
    (hifc : ∀ si l, (step si l).incremental_files_changed =
      ((cnt l).getLast?).or si.incremental_files_changed)
    (hskip : ∀ si l, (step si l).incremental_skipped =
      (si.incremental_skipped || ((cnt l).any (fun n => n == 0)))) :
    ∀ (lines : List Str) (si : IncInfo),
      ((lines.foldl step si).incremental_files_changed =
        (((lines.map cnt).flatten).getLast?).or si.incremental_files_changed) ∧
      ((lines.foldl step si).incremental_skipped =
        (si.incremental_skipped || (((lines.map cnt).flatten).any (fun n => n == 0)))) := by
  intro lines
  induction lines with
  | nil => intro si; simp
  | cons l ls ih =>
    intro si
    have h := ih (step si l)
    rw [List.foldl_cons] at *
    constructor
    · rw [h.1, hifc, List.map_cons, List.flatten_cons, getLast?_append_or, Option.or_assoc]
    · rw [h.2, hskip, List.map_cons, List.flatten_cons, List.any_append, Bool.or_assoc]

/-- The engine count sequence is the flattened per-line contribution. -/
theorem engineCounts_eq_flat (lines : List Str) :
    (lines.map (fun l => (engineLineCount l).toList)).flatten = engineCounts lines := by
  induction lines with
  | nil => rfl
  | cons l ls ih =>
    cases h : engineLineCount l <;> simp [engineCounts, List.filterMap_cons, h, ih]

theorem toList_getLast? {α} (o : Option α) : o.toList.getLast? = o := by
  cases o <;> rfl

/-- A non-effective line leaves the totals untouched (the marker check
fails, the token count is short, or int() raises inside the try). -/
theorem totalsStep_noop (t : QueryTotals) (line : Str) (h : totalsEffective line = false) :
    totalsStep t line = t := by
  unfold totalsStep
  by_cases h1 : ((pyStr "Total:").isPrefixOf (pyStrip line)) = true
  · rw [if_pos h1]
    by_cases h2 : 3 ≤ (pySplitWS line).length
    · rw [if_pos h2]
      cases h3 : pyInt ((pySplitWS line).getD 1 []) with
      | some n =>
        exfalso
        unfold totalsEffective at h
        rw [h1, h3] at h
        simp [h2] at h
      | none => rfl
    · rw [if_neg h2]
  · rw [if_neg h1]

/-- The totals fold ignores all non-effective lines. -/
theorem totals_fold_filter (lines : List Str) : ∀ t : QueryTotals,
    lines.foldl totalsStep t = (lines.filter totalsEffective).foldl totalsStep t := by
  induction lines with
  | nil => intro t; rfl
  | cons l ls ih =>
    intro t
    by_cases h : totalsEffective l = true
    · simp [List.filter_cons, h, List.foldl_cons, ih]
    · have hb : totalsEffective l = false := by simpa using h
      simp [List.filter_cons, hb, List.foldl_cons, ih, totalsStep_noop t l hb]

/-- One analyze_log iteration grows the error and warning lists by at
most one entry total, and only on a parsed line. -/
theorem analyze_fold_inv (lines : List Str) : ∀ (p : Nat) (e w : List LogLine),
    e.length + w.length ≤ p →
    ((lines.foldl analyzeStep (p, e, w)).2.1.length +
        (lines.foldl analyzeStep (p, e, w)).2.2.length ≤
      (lines.foldl analyzeStep (p, e, w)).1) ∧
    (lines.foldl analyzeStep (p, e, w)).1 ≤ p + lines.length := by
  induction lines with
  | nil =>
    intro p e w h
    exact ⟨h, by simp⟩
  | cons l ls ih =>
    intro p e w h
    rw [List.foldl_cons]
    cases hp : parse_log_line l with
    | none =>
      have hstep : analyzeStep (p, e, w) l = (p, e, w) := by simp [analyzeStep, hp]
      rw [hstep]
      have hh := ih p e w h
      exact ⟨hh.1, hh.2.trans (by simp only [List.length_cons]; omega)⟩
    | some q =>
      by_cases hE : q.level = pyStr "ERROR"
      · have hstep : analyzeStep (p, e, w) l = (p + 1, e ++ [q], w) := by
          simp only [analyzeStep, hp]
          rw [if_pos hE]
        rw [hstep]
        have hh := ih (p + 1) (e ++ [q]) w
            (by simp only [List.length_append, List.length_cons, List.length_nil]; omega)
        exact ⟨hh.1, hh.2.trans (by simp; omega)⟩
      · by_cases hW : q.level = pyStr "WARN"
        · have hstep : analyzeStep (p, e, w) l = (p + 1, e, w ++ [q]) := by
            simp only [analyzeStep, hp]
            rw [if_neg hE, if_pos hW]
          rw [hstep]
          have hh := ih (p + 1) e (w ++ [q])
              (by simp only [List.length_append, List.length_cons, List.length_nil]; omega)
          exact ⟨hh.1, hh.2.trans (by simp; omega)⟩
        · have hstep : analyzeStep (p, e, w) l = (p + 1, e, w) := by
            simp only [analyzeStep, hp]
            rw [if_neg hE, if_neg hW]
          rw [hstep]
          have hh := ih (p + 1) e w (by omega)
          exact ⟨hh.1, hh.2.trans (by simp; omega)⟩

/-- One analyze_dast_log iteration grows the error and warning lists by
at most one entry total, and only on a parsed line. -/
theorem dast_fold_inv (lines : List Str) : ∀ (p : Nat) (e w : List DastLogLine),
    e.length + w.length ≤ p →
    ((lines.foldl dastStep (p, e, w)).2.1.length +
        (lines.foldl dastStep (p, e, w)).2.2.length ≤
      (lines.foldl dastStep (p, e, w)).1) ∧
    (lines.foldl dastStep (p, e, w)).1 ≤ p + lines.length := by
  induction lines with
  | nil =>
    intro p e w h
    exact ⟨h, by simp⟩
  | cons l ls ih =>
    intro p e w h
    rw [List.foldl_cons]
    cases hp : parse_dast_log_line l with
    | none =>
      have hstep : dastStep (p, e, w) l = (p, e, w) := by simp [dastStep, hp]
      rw [hstep]
      have hh := ih p e w h
      exact ⟨hh.1, hh.2.trans (by simp only [List.length_cons]; omega)⟩
    | some q =>
      by_cases hE : q.level = pyStr "ERROR"
      · have hstep : dastStep (p, e, w) l = (p + 1, e ++ [q], w) := by
          simp only [dastStep, hp]
          rw [if_pos hE]
        rw [hstep]
        have hh := ih (p + 1) (e ++ [q]) w
            (by simp only [List.length_append, List.length_cons, List.length_nil]; omega)
        exact ⟨hh.1, hh.2.trans (by simp; omega)⟩
      · by_cases hW : q.level = pyStr "WARN"
        · have hstep : dastStep (p, e, w) l = (p + 1, e, w ++ [q]) := by
            simp only [dastStep, hp]
            rw [if_neg hE, if_pos hW]
          rw [hstep]
          have hh := ih (p + 1) e (w ++ [q])
              (by simp only [List.length_append, List.length_cons, List.length_nil]; omega)
          exact ⟨hh.1, hh.2.trans (by simp; omega)⟩
        · have hstep : dastStep (p, e, w) l = (p + 1, e, w) := by
            simp only [dastStep, hp]
            rw [if_neg hE, if_neg hW]
          rw [hstep]
          have hh := ih (p + 1) e w (by omega)
          exact ⟨hh.1, hh.2.trans (by simp; omega)⟩

/-! ### Lemmas for the path normalizer (C1) -/

theorem hexTake_eq_drop : ∀ (n : Nat) (l r : Str), hexTake n l = some r → r = l.drop n := by
  intro n
  induction n with
  | zero =>
    intro l r h
    unfold hexTake at h
    injection h with h
    rw [← h, List.drop_zero]
  | succ m ih =>
    intro l r h
    cases l with
    | nil => exact Option.noConfusion h
    | cons c cs =>
      unfold hexTake at h
      by_cases hc : isHexChar c = true
      · rw [if_pos hc] at h
        rw [List.drop_succ_cons]
        exact ih cs r h
      · rw [if_neg hc] at h
        exact Option.noConfusion h

theorem charTake_eq_drop (ch : Char) (l r : Str) (h : charTake ch l = some r) : r = l.drop 1 := by
  cases l with
  | nil => exact Option.noConfusion h
  | cons c cs =>
    simp only [charTake] at h
    by_cases hc : c = ch
    · rw [if_pos hc] at h
      injection h with h
      rw [← h]
      rfl
    · rw [if_neg hc] at h
      exact Option.noConfusion h

theorem uuidAfter_eq_drop (l r : Str) (h : uuidAfter l = some r) : r = l.drop 36 := by
  unfold uuidAfter at h
  cases h1 : hexTake 8 l with
  | none => simp [h1] at h
  | some l1 =>
  simp only [h1, Option.bind_eq_bind', Option.some_bind'] at h
  cases h2 : charTake '-' l1 with
  | none => simp [h2] at h
  | some l2 =>
  simp only [h2, Option.bind_eq_bind', Option.some_bind'] at h
  cases h3 : hexTake 4 l2 with
  | none => simp [h3] at h
  | some l3 =>
  simp only [h3, Option.bind_eq_bind', Option.some_bind'] at h
  cases h4 : charTake '-' l3 with
  | none => simp [h4] at h
  | some l4 =>
  simp only [h4, Option.bind_eq_bind', Option.some_bind'] at h
  cases h5 : hexTake 4 l4 with
  | none => simp [h5] at h
  | some l5 =>
  simp only [h5, Option.bind_eq_bind', Option.some_bind'] at h
  cases h6 : charTake '-' l5 with
  | none => simp [h6] at h
  | some l6 =>
  simp only [h6, Option.bind_eq_bind', Option.some_bind'] at h
  cases h7 : hexTake 4 l6 with
  | none => simp [h7] at h
  | some l7 =>
  simp only [h7, Option.bind_eq_bind', Option.some_bind'] at h
  cases h8 : charTake '-' l7 with
  | none => simp [h8] at h
  | some l8 =>
  simp only [h8, Option.bind_eq_bind', Option.some_bind'] at h
  have e1 := hexTake_eq_drop 8 l l1 h1
  have e2 := charTake_eq_drop '-' l1 l2 h2
  have e3 := hexTake_eq_drop 4 l2 l3 h3
  have e4 := charTake_eq_drop '-' l3 l4 h4
  have e5 := hexTake_eq_drop 4 l4 l5 h5
  have e6 := charTake_eq_drop '-' l5 l6 h6
  have e7 := hexTake_eq_drop 4 l6 l7 h7
  have e8 := charTake_eq_drop '-' l7 l8 h8
  have e9 := hexTake_eq_drop 12 l8 r h
  subst e1 e2 e3 e4 e5 e6 e7 e8 e9
  simp [List.drop_drop]

theorem hexTake_append : ∀ (n : Nat) (l r t : Str), hexTake n l = some r →
    hexTake n (l ++ t) = some (r ++ t) := by
  intro n
  induction n with
  | zero =>
    intro l r t h
    unfold hexTake at h ⊢
    injection h with h
    rw [h]
  | succ m ih =>
    intro l r t h
    cases l with
    | nil => exact Option.noConfusion h
    | cons c cs =>
      rw [List.cons_append]
      unfold hexTake at h ⊢
      by_cases hc : isHexChar c = true
      · rw [if_pos hc] at h ⊢
        exact ih cs r t h
      · rw [if_neg hc] at h
        exact Option.noConfusion h

theorem charTake_append (ch : Char) (l r t : Str) (h : charTake ch l = some r) :
    charTake ch (l ++ t) = some (r ++ t) := by
  cases l with
  | nil => exact Option.noConfusion h
  | cons c cs =>
    rw [List.cons_append]
    simp only [charTake] at h ⊢
    by_cases hc : c = ch
    · rw [if_pos hc] at h ⊢
      injection h with h
      rw [h]
    · rw [if_neg hc] at h
      exact Option.noConfusion h

theorem uuidAfter_append (l r t : Str) (h : uuidAfter l = some r) :
    uuidAfter (l ++ t) = some (r ++ t) := by
  unfold uuidAfter at h ⊢
  cases h1 : hexTake 8 l with
  | none => simp [h1] at h
  | some l1 =>
  simp only [h1, Option.bind_eq_bind', Option.some_bind'] at h
  rw [hexTake_append 8 l l1 t h1]
  simp only [Option.bind_eq_bind', Option.some_bind']
  cases h2 : charTake '-' l1 with
  | none => simp [h2] at h
  | some l2 =>
  simp only [h2, Option.bind_eq_bind', Option.some_bind'] at h
  rw [charTake_append '-' l1 l2 t h2]
  simp only [Option.bind_eq_bind', Option.some_bind']
  cases h3 : hexTake 4 l2 with
  | none => simp [h3] at h
  | some l3 =>
  simp only [h3, Option.bind_eq_bind', Option.some_bind'] at h
  rw [hexTake_append 4 l2 l3 t h3]
  simp only [Option.bind_eq_bind', Option.some_bind']
  cases h4 : charTake '-' l3 with
  | none => simp [h4] at h
  | some l4 =>
  simp only [h4, Option.bind_eq_bind', Option.some_bind'] at h
  rw [charTake_append '-' l3 l4 t h4]
  simp only [Option.bind_eq_bind', Option.some_bind']
  cases h5 : hexTake 4 l4 with
  | none => simp [h5] at h
  | some l5 =>
  simp only [h5, Option.bind_eq_bind', Option.some_bind'] at h
  rw [hexTake_append 4 l4 l5 t h5]
  simp only [Option.bind_eq_bind', Option.some_bind']
  cases h6 : charTake '-' l5 with
  | none => simp [h6] at h
  | some l6 =>
  simp only [h6, Option.bind_eq_bind', Option.some_bind'] at h
  rw [charTake_append '-' l5 l6 t h6]
  simp only [Option.bind_eq_bind', Option.some_bind']
  cases h7 : hexTake 4 l6 with
  | none => simp [h7] at h
  | some l7 =>
  simp only [h7, Option.bind_eq_bind', Option.some_bind'] at h
  rw [hexTake_append 4 l6 l7 t h7]
  simp only [Option.bind_eq_bind', Option.some_bind']
  cases h8 : charTake '-' l7 with
  | none => simp [h8] at h
  | some l8 =>
  simp only [h8, Option.bind_eq_bind', Option.some_bind'] at h
  rw [charTake_append '-' l7 l8 t h8]
  simp only [Option.bind_eq_bind', Option.some_bind']
  exact hexTake_append 12 l8 r t h

/-- A UUID start survives extending the string on the right. -/
theorem uuidStart_mono (a b : Str) (h : uuidStart a = true) : uuidStart (a ++ b) = true := by
  unfold uuidStart at h ⊢
  cases hu : uuidAfter a with
  | none => rw [hu] at h; exact absurd h (by simp)
  | some r => rw [uuidAfter_append a r b hu]; rfl

theorem uuidCount_pos (l : Str) (h : uuidStart l = true) : 1 ≤ uuidCount l := by
  cases l with
  | nil => exact absurd h (by decide)
  | cons c cs =>
    unfold uuidCount
    rw [if_pos h]
    omega

theorem uuidCount_drop_le : ∀ (n : Nat) (l : Str), uuidCount (l.drop n) ≤ uuidCount l := by
  intro n
  induction n with
  | zero => intro l; rw [List.drop_zero]
  | succ m ih =>
    intro l
    cases l with
    | nil => rw [List.drop_nil]
    | cons c cs =>
      rw [List.drop_succ_cons]
      calc uuidCount (cs.drop m) ≤ uuidCount cs := ih cs
        _ ≤ uuidCount (c :: cs) := by
            simp only [uuidCount]
            by_cases hb : uuidStart (c :: cs) = true
            · rw [if_pos hb]; omega
            · rw [if_neg hb]; omega

theorem uuidCount_two_of_start (l : Str) (j : Nat) (hj : 0 < j) (h0 : uuidStart l = true)
    (hj' : uuidStart (l.drop j) = true) : 2 ≤ uuidCount l := by
  cases l with
  | nil => exact absurd h0 (by decide)
  | cons c cs =>
    unfold uuidCount
    rw [if_pos h0]
    have hdrop : (c :: cs).drop j = cs.drop (j - 1) := by
      cases j with
      | zero => omega
      | succ m => simp [List.drop_succ_cons]
    rw [hdrop] at hj'
    have h1 : 1 ≤ uuidCount (cs.drop (j - 1)) := uuidCount_pos _ hj'
    have h2 := uuidCount_drop_le (j - 1) cs
    omega

theorem uuidCount_two (l : Str) (i j : Nat) (hij : i < j)
    (hi : uuidStart (l.drop i) = true) (hj : uuidStart (l.drop j) = true) :
    2 ≤ uuidCount l := by
  have hdrop : (l.drop i).drop (j - i) = l.drop j := by
    rw [List.drop_drop]
    congr 1
    omega
  have h2 := uuidCount_two_of_start (l.drop i) (j - i) (by omega) hi (by rw [hdrop]; exact hj)
  exact le_trans h2 (uuidCount_drop_le i l)

theorem searchUUID_some : ∀ (l g : Str), searchUUID l = some g →
    ∃ i, matchAt (l.drop i) = some g := by
  intro l
  induction l with
  | nil => intro g h; exact Option.noConfusion h
  | cons c cs ih =>
    intro g h
    unfold searchUUID at h
    cases hm : matchAt (c :: cs) with
    | some g0 =>
      simp only [hm] at h
      injection h with h
      exact ⟨0, by rw [List.drop_zero, hm, h]⟩
    | none =>
      simp only [hm] at h
      obtain ⟨i, hi⟩ := ih g h
      refine ⟨i + 1, ?_⟩
      rw [List.drop_succ_cons]
      exact hi

theorem searchUUID_none (l : Str) (h : ∀ i, matchAt (l.drop i) = none) : searchUUID l = none := by
  induction l with
  | nil => rfl
  | cons c cs ih =>
    unfold searchUUID
    have h0 := h 0
    rw [List.drop_zero] at h0
    simp only [h0]
    exact ih (fun i => by have hsucc := h (i + 1); rwa [List.drop_succ_cons] at hsucc)

theorem matchAt_some (l g : Str) (h : matchAt l = some g) :
    uuidStart l = true ∧ g = groupEnd (l.drop 37) := by
  unfold matchAt at h
  cases hu : uuidAfter l with
  | none => simp [hu] at h
  | some rest =>
    simp only [hu] at h
    cases hc : charTake '/' rest with
    | none => simp [hc] at h
    | some r =>
      simp only [hc] at h
      have hr : r = l.drop 37 := by
        have e1 := uuidAfter_eq_drop l rest hu
        have e2 := charTake_eq_drop '/' rest r hc
        rw [e2, e1, List.drop_drop]
      constructor
      · unfold uuidStart
        rw [hu]
        rfl
      · by_cases hcond : (!(groupEnd r).isEmpty && !((groupEnd r).contains '\n')) = true
        · rw [if_pos hcond] at h
          injection h with h
          rw [← h, hr]
        · rw [if_neg hcond] at h
          exact Option.noConfusion h

theorem matchAt_none (l : Str) (h : uuidStart l = false) : matchAt l = none := by
  unfold matchAt
  cases hu : uuidAfter l with
  | none => rfl
  | some rest =>
    unfold uuidStart at h
    rw [hu] at h
    exact absurd h (by simp)

theorem map_replSlash_id (l : Str) (h : ∀ c ∈ l, c ≠ '\\') : l.map replSlash = l := by
  induction l with
  | nil => rfl
  | cons c cs ih =>
    rw [List.map_cons]
    have hc : c ≠ '\\' := h c (List.mem_cons_self c cs)
    have hrc : replSlash c = c := by unfold replSlash; rw [if_neg hc]
    rw [hrc, ih (fun x hx => h x (List.mem_cons_of_mem c hx))]

theorem mem_map_replSlash (l : Str) : ∀ c ∈ l.map replSlash, c ≠ '\\' := by
  intro c hc
  obtain ⟨a, _, ha⟩ := List.mem_map.mp hc
  rw [← ha]
  unfold replSlash
  by_cases hb : a = '\\'
  · rw [if_pos hb]; decide
  · rw [if_neg hb]; exact hb

/-- Membership in the captured group lifts to the suffix it was cut
from: the group is either the suffix or the suffix without its final
newline. -/
theorem mem_groupEnd (r : Str) : ∀ c ∈ groupEnd r, c ∈ r := by
  intro c hc
  unfold groupEnd at hc
  by_cases hl : r.getLast? = some '\n'
  · rw [if_pos hl] at hc
    exact (List.dropLast_sublist _).subset hc
  · rw [if_neg hl] at hc
    exact hc

/-- A UUID start inside the captured group lifts to a UUID start in the
suffix it was cut from. -/
theorem uuidStart_groupEnd (r : Str) (k : Nat) (h : uuidStart ((groupEnd r).drop k) = true) :
    uuidStart (r.drop k) = true := by
  unfold groupEnd at h
  by_cases hl : r.getLast? = some '\n'
  · rw [if_pos hl] at h
    rw [List.dropLast_eq_take, List.drop_take] at h
    have hmono := uuidStart_mono _ ((r.drop k).drop (r.length - 1 - k)) h
    rwa [List.take_append_drop] at hmono
  · rwa [if_neg hl] at h

/-! ### Lemmas for the format detector (C6) -/

theorem splitNL_ne_nil (l : Str) : splitNL l ≠ [] := by
  cases l with
  | nil => simp [splitNL]
  | cons c cs =>
    unfold splitNL
    by_cases h : c = '\n'
    · rw [if_pos h]; simp
    · rw [if_neg h]
      cases hs : splitNL cs <;> simp

theorem splitNL_cons_ne (c : Char) (cs : Str) (h : ¬ c = '\n') :
    splitNL (c :: cs) = (c :: (splitNL cs).headD []) :: (splitNL cs).tail := by
  cases hs : splitNL cs with
  | nil => exact absurd hs (splitNL_ne_nil cs)
  | cons x xs => simp [splitNL, h, hs]

theorem take_succ_headD {α} (l : List α) (hne : l ≠ []) (n : Nat) (d : α) :
    l.take (n + 1) = l.headD d :: l.tail.take n := by
  cases l with
  | nil => exact absurd rfl hne
  | cons x xs => rfl

/-- Stability of the first lines under appending: as long as the prefix
has at least n newline characters, its first n split parts are
unaffected by any appended suffix. -/
theorem take_splitNL_append (c : Str) : ∀ (n : Nat), n ≤ countNL c → ∀ s : Str,
    (splitNL (c ++ s)).take n = (splitNL c).take n := by
  induction c with
  | nil =>
    intro n hn s
    have h0 : n = 0 := by
      simp only [countNL] at hn
      omega
    rw [h0]
    rfl
  | cons ch cs ih =>
    intro n hn s
    by_cases h : ch = '\n'
    · subst h
      cases n with
      | zero => rfl
      | succ m =>
        have hcount : countNL ('\n' :: cs) = 1 + countNL cs := by
          simp [countNL]
        rw [List.cons_append]
        show (splitNL ('\n' :: (cs ++ s))).take (m + 1) = (splitNL ('\n' :: cs)).take (m + 1)
        unfold splitNL
        rw [if_pos rfl, if_pos rfl, List.take_succ_cons, List.take_succ_cons,
          ih m (by omega) s]
    · cases n with
      | zero => rfl
      | succ m =>
        have hcount : countNL (ch :: cs) = 0 + countNL cs := by
          simp only [countNL]
          rw [if_neg h]
        have hm : m + 1 ≤ countNL cs := by omega
        rw [List.cons_append, splitNL_cons_ne ch _ h, splitNL_cons_ne ch _ h]
        have hAB := ih (m + 1) hm s
        rw [take_succ_headD (splitNL (cs ++ s)) (splitNL_ne_nil _) m ([]),
          take_succ_headD (splitNL cs) (splitNL_ne_nil _) m ([])] at hAB
        injection hAB with hh ht
        rw [List.take_succ_cons, List.take_succ_cons, hh, ht]

/-! ## Claim theorems -/

/-- C1 counterexample: normalize_filepath is not idempotent on a path
with two UUID-shaped segments — the first application strips through the
first UUID only, leaving a path that a second application strips again. -/
theorem c1_counterexample :
    normalize_filepath (normalize_filepath
        (pyStr "aaaaaaaa-aaaa-aaaa-aaaa-aaaaaaaaaaaa/bbbbbbbb-bbbb-bbbb-bbbb-bbbbbbbbbbbb/x")) ≠
      normalize_filepath
        (pyStr "aaaaaaaa-aaaa-aaaa-aaaa-aaaaaaaaaaaa/bbbbbbbb-bbbb-bbbb-bbbb-bbbbbbbbbbbb/x") := by
  decide

/-- C1 (amended): normalize_filepath is idempotent on every path whose
slash-normalized form contains at most one UUID-shaped position; with
two or more UUID segments a second application can strip an additional
prefix, as the counterexample shows. -/
theorem c1_amended_idempotent_one_uuid (p : Str)
    (h : uuidCount (p.map replSlash) ≤ 1) :
    normalize_filepath (normalize_filepath p) = normalize_filepath p := by
  cases hs : searchUUID (p.map replSlash) with
  | none =>
    have h1 : normalize_filepath p = p.map replSlash := by
      simp only [normalize_filepath, hs]
    rw [h1]
    simp only [normalize_filepath, map_replSlash_id _ (mem_map_replSlash p), hs]
  | some g =>
    have h1 : normalize_filepath p = g := by
      simp only [normalize_filepath, hs]
    rw [h1]
    obtain ⟨i, hi⟩ := searchUUID_some (p.map replSlash) g hs
    obtain ⟨hstart, hg⟩ := matchAt_some _ g hi
    have hgf : ∀ k, uuidStart (g.drop k) = false := by
      intro k
      cases hb : uuidStart (g.drop k) with
      | false => rfl
      | true =>
        exfalso
        have hbr : uuidStart ((((p.map replSlash).drop i).drop 37).drop k) = true := by
          apply uuidStart_groupEnd
          rw [← hg]
          exact hb
        have hbig : uuidStart ((p.map replSlash).drop (i + 37 + k)) = true := by
          have e : (((p.map replSlash).drop i).drop 37).drop k =
              (p.map replSlash).drop (i + 37 + k) := by
            rw [List.drop_drop, List.drop_drop]
            congr 1
            omega
          rwa [e] at hbr
        have h2 := uuidCount_two (p.map replSlash) i (i + 37 + k) (by omega) hstart hbig
        omega
    have hmapg : g.map replSlash = g := by
      apply map_replSlash_id
      intro c hc
      have hcr : c ∈ ((p.map replSlash).drop i).drop 37 := by
        apply mem_groupEnd
        rw [← hg]
        exact hc
      have hcp : c ∈ p.map replSlash :=
        List.drop_subset _ _ (List.drop_subset _ _ hcr)
      exact mem_map_replSlash p c hcp
    have hsearch : searchUUID g = none :=
      searchUUID_none g (fun k => matchAt_none _ (hgf k))
    simp only [normalize_filepath, hmapg, hsearch]

/-- C1 witness: a path with a single UUID segment normalizes to the same
result under one or two applications. -/
theorem c1_witness :
    uuidCount ((pyStr "/tmp/x/aaaaaaaa-bbbb-cccc-dddd-eeeeffff0000/src/app.js").map replSlash) ≤ 1 ∧
    normalize_filepath (normalize_filepath
        (pyStr "/tmp/x/aaaaaaaa-bbbb-cccc-dddd-eeeeffff0000/src/app.js")) =
      normalize_filepath (pyStr "/tmp/x/aaaaaaaa-bbbb-cccc-dddd-eeeeffff0000/src/app.js") :=
  ⟨by decide, c1_amended_idempotent_one_uuid _ (by decide)⟩

/-- C2: evaluation at the failing input.  On a log whose only line
reports a files-changed count, the engine extractor extract_scan_info
records the count but leaves is_incremental false, while the SAST
extractor extract_sast_scan_info sets it true on the same input — the
engine extractor violates the shared incremental-scan policy. -/
theorem c2_engine_count_without_flag :
    findCount (pyStr "Incremental Scan: number of files changed: 5.") = some 5 ∧
    (extract_scan_info
        [pyStr "Incremental Scan: number of files changed: 5."]).incremental_files_changed = some 5 ∧
    (extract_scan_info
        [pyStr "Incremental Scan: number of files changed: 5."]).is_incremental = false ∧
    (extract_sast_scan_info
        [pyStr "Incremental Scan: number of files changed: 5."]).is_incremental = true := by
  decide

/-- C3 counterexample: on a log reporting a zero count and then a
non-zero count, incremental_skipped stays true while the last count is 5,
so skipped is not equivalent to the final count being zero. -/
theorem c3_counterexample :
    ¬ (((extract_scan_info [pyStr "Incremental Scan: number of files changed: 0.",
                            pyStr "Incremental Scan: number of files changed: 5."]).incremental_skipped
          = true) ↔
       ((extract_scan_info [pyStr "Incremental Scan: number of files changed: 0.",
                            pyStr "Incremental Scan: number of files changed: 5."]).incremental_files_changed
          = some 0)) := by
  decide

/-- C3 (amended): in both extractors incremental_files_changed is the
last reported count (last-write-wins, as claimed), but
incremental_skipped is sticky: it is true exactly when SOME reported
count equals zero (it is never reset by a later non-zero count), not
when the final count does. -/
theorem c3_amended_last_count_sticky_skip (lines : List Str) :
    ((extract_scan_info lines).incremental_files_changed = (engineCounts lines).getLast? ∧
     (extract_scan_info lines).incremental_skipped =
       (engineCounts lines).any (fun n => n == 0)) ∧
    ((extract_sast_scan_info lines).incremental_files_changed = (sastCounts lines).getLast? ∧
     (extract_sast_scan_info lines).incremental_skipped =
       (sastCounts lines).any (fun n => n == 0)) := by
  have hifc : ∀ si l, (engineIncStep si l).incremental_files_changed =
      ((((fun l => (engineLineCount l).toList) l).getLast?).or si.incremental_files_changed) := by
    intro si l
    rw [engineIncStep_ifc]
    simp [toList_getLast?]
  have heng := incFold_spec engineIncStep (fun l => (engineLineCount l).toList)
      hifc engineIncStep_skip lines incInit
  rw [engineCounts_eq_flat] at heng
  have hsast : ∀ b : Bool,
      ((lines.foldl sastIncStep { incInit with is_incremental := b }).incremental_files_changed =
        (sastCounts lines).getLast?) ∧
      ((lines.foldl sastIncStep { incInit with is_incremental := b }).incremental_skipped =
        (sastCounts lines).any (fun n => n == 0)) := by
    intro b
    have h := incFold_spec sastIncStep sastLineCounts sastIncStep_ifc sastIncStep_skip lines
        { incInit with is_incremental := b }
    simpa [sastCounts, incInit] using h
  refine ⟨⟨?_, ?_⟩, ?_, ?_⟩
  · simpa [extract_scan_info, incInit] using heng.1
  · simpa [extract_scan_info, incInit] using heng.2
  · simp only [extract_sast_scan_info, incInit]
    exact (hsast _).1
  · simp only [extract_sast_scan_info, incInit]
    exact (hsast _).2

/-- C4 counterexample: a numeric summary field of compare_logs is the
two-element pair of the sides' values, never the three-element triple
with the delta appended. -/
theorem c4_counterexample :
    (compare_logs
        { log_type := pyStr "CxOne SAST", project_name := pyStr "p", scan_mode := pyStr "Full Scan",
          total_time := pyStr "00:00:01", files_count := 1, queries_count := 3, total_results := 5,
          errors_count := 0, loc := 10, peak_memory := 7, files := [] }
        { log_type := pyStr "CxOne SAST", project_name := pyStr "p", scan_mode := pyStr "Full Scan",
          total_time := pyStr "00:00:02", files_count := 2, queries_count := 4, total_results := 9,
          errors_count := 1, loc := 20, peak_memory := 8, files := [] }).summary.files_count ≠
      [1, 2, 2 - 1] := by
  decide

/-- C4 (amended): every numeric summary field of compare_logs is the
pair (a.value, b.value) with no delta component, the non-numeric fields
are pairs as well, and swapping the operands reverses each pair. -/
theorem c4_amended_summary_pairs (a b : NormalizedAnalysis) :
    ((compare_logs a b).summary.files_count = [a.files_count, b.files_count] ∧
     (compare_logs b a).summary.files_count = [b.files_count, a.files_count]) ∧
    ((compare_logs a b).summary.queries_count = [a.queries_count, b.queries_count] ∧
     (compare_logs b a).summary.queries_count = [b.queries_count, a.queries_count]) ∧
    ((compare_logs a b).summary.total_results = [a.total_results, b.total_results] ∧
     (compare_logs b a).summary.total_results = [b.total_results, a.total_results]) ∧
    ((compare_logs a b).summary.errors_count = [a.errors_count, b.errors_count] ∧
     (compare_logs b a).summary.errors_count = [b.errors_count, a.errors_count]) ∧
    ((compare_logs a b).summary.loc = [a.loc, b.loc] ∧
     (compare_logs b a).summary.loc = [b.loc, a.loc]) ∧
    ((compare_logs a b).summary.peak_memory = [a.peak_memory, b.peak_memory] ∧
     (compare_logs b a).summary.peak_memory = [b.peak_memory, a.peak_memory]) ∧
    (compare_logs a b).summary.project_name = (a.project_name, b.project_name) ∧
    (compare_logs a b).summary.scan_mode = (a.scan_mode, b.scan_mode) ∧
    (compare_logs a b).summary.total_time = (a.total_time, b.total_time) :=
  ⟨⟨rfl, rfl⟩, ⟨rfl, rfl⟩, ⟨rfl, rfl⟩, ⟨rfl, rfl⟩, ⟨rfl, rfl⟩, ⟨rfl, rfl⟩, rfl, rfl, rfl⟩

/-- C5: whenever the 150-line sample contains the three engine-grammar
signature substrings, detect_log_type returns cxone_sast or cxsast —
never cxone — regardless of any generic cloud-product tokens also
present: the shared-grammar check precedes the generic-name checks. -/
theorem c5_engine_signature_precedence (content : Str)
    (h1 : containsSub (pyStr "Available memory:")
        (joinNL ((splitNL content).take 150)) = true)
    (h2 : containsSub (pyStr "Used memory:")
        (joinNL ((splitNL content).take 150)) = true)
    (h3 : containsSub (pyStr "Elapsed Time:")
        (joinNL ((splitNL content).take 150)) = true) :
    detect_log_type content = LogType.cxone_sast ∨
      detect_log_type content = LogType.cxsast := by
  by_cases hc :
      (containsSub (pyStr "sast-engine-worker")
          (lowerStr (joinNL ((splitNL content).take 150))) ||
       containsSub (pyStr "OS: Unix") (joinNL ((splitNL content).take 150)) ||
       containsSub (pyStr "OS: Linux") (joinNL ((splitNL content).take 150)) ||
       containsSub (pyStr "/app/Engine") (joinNL ((splitNL content).take 150)) ||
       containsSub (pyStr "kubernetes.io") (joinNL ((splitNL content).take 150)) ||
       containsSub (pyStr "/usr/share/dotnet") (joinNL ((splitNL content).take 150))) = true
  · left
    simp [detect_log_type, detectSample, h1, h2, h3, hc]
  · right
    rw [Bool.not_eq_true] at hc
    simp [detect_log_type, detectSample, h1, h2, h3, hc]

/-- C5 witness: a one-line engine-signature sample that also contains
the generic tokens CxOne, ast-sast and Starting Query is still
classified as one of the two engine formats. -/
theorem c5_witness :
    (containsSub (pyStr "Available memory:") (joinNL ((splitNL
        (pyStr "CxOne ast-sast Starting Query: Available memory: 1 Used memory: 2 Elapsed Time: 3")).take 150)) = true ∧
     containsSub (pyStr "Used memory:") (joinNL ((splitNL
        (pyStr "CxOne ast-sast Starting Query: Available memory: 1 Used memory: 2 Elapsed Time: 3")).take 150)) = true ∧
     containsSub (pyStr "Elapsed Time:") (joinNL ((splitNL
        (pyStr "CxOne ast-sast Starting Query: Available memory: 1 Used memory: 2 Elapsed Time: 3")).take 150)) = true) ∧
    (detect_log_type
        (pyStr "CxOne ast-sast Starting Query: Available memory: 1 Used memory: 2 Elapsed Time: 3") =
          LogType.cxone_sast ∨
     detect_log_type
        (pyStr "CxOne ast-sast Starting Query: Available memory: 1 Used memory: 2 Elapsed Time: 3") =
          LogType.cxsast) :=
  ⟨⟨by decide, by decide, by decide⟩,
   c5_engine_signature_precedence _ (by decide) (by decide) (by decide)⟩

/-- C9: totals invariant — for every input the error and warning counts
together are bounded by the parsed-line count, which is bounded by the
raw line count, for both analyze_log and analyze_dast_log. -/
theorem c9_totals_invariant (content : Str) :
    ((analyze_log content).errors.length + (analyze_log content).warnings.length ≤
        (analyze_log content).parsed_lines ∧
     (analyze_log content).parsed_lines ≤ (analyze_log content).total_lines) ∧
    ((analyze_dast_log content).errors.length + (analyze_dast_log content).warnings.length ≤
        (analyze_dast_log content).parsed_lines ∧
     (analyze_dast_log content).parsed_lines ≤ (analyze_dast_log content).total_lines) := by
  have h1 := analyze_fold_inv (splitNL content) 0 [] [] (by simp)
  have h2 := dast_fold_inv (splitNL content) 0 [] [] (by simp)
  constructor
  · exact ⟨by simpa [analyze_log] using h1.1, by simpa [analyze_log] using h1.2⟩
  · exact ⟨by simpa [analyze_dast_log] using h2.1, by simpa [analyze_dast_log] using h2.2⟩

/-- C10: extract_query_totals ignores every line that is not an
effective totals line (marker missing, fewer than three tokens, or a
second token on which int() raises) and keeps processing; when no
effective totals line exists the result is exactly the defaults of zero
results and a zero duration string. -/
theorem c10_totals_error_handling (lines : List Str) :
    extract_query_totals lines = extract_query_totals (lines.filter totalsEffective) ∧
    ((∀ l ∈ lines, totalsEffective l = false) → extract_query_totals lines = totalsInit) := by
  constructor
  · exact totals_fold_filter lines totalsInit
  · intro h
    have hnil : lines.filter totalsEffective = [] := by
      rw [List.filter_eq_nil_iff]
      intro a ha
      simp [h a ha]
    unfold extract_query_totals
    rw [totals_fold_filter lines totalsInit, hnil]
    rfl

/-- C10 witness: a log whose Total lines are all malformed (a
non-integer second token, or too few tokens) yields exactly the default
totals. -/
theorem c10_witness :
    extract_query_totals [pyStr "Total: abc 00:01", pyStr "junk", pyStr "Total:"] =
      extract_query_totals
        ([pyStr "Total: abc 00:01", pyStr "junk", pyStr "Total:"].filter totalsEffective) ∧
    extract_query_totals [pyStr "Total: abc 00:01", pyStr "junk", pyStr "Total:"] = totalsInit :=
  ⟨(c10_totals_error_handling _).1, (c10_totals_error_handling _).2 (by decide)⟩

/-- C6: detect_log_type depends only on the first 150 lines — for any
content with at least 150 complete (newline-terminated) lines, appending
an arbitrary suffix after them does not change the classification. -/
theorem c6_detector_stability (c s : Str) (h : 150 ≤ countNL c) :
    detect_log_type (c ++ s) = detect_log_type c := by
  unfold detect_log_type
  rw [take_splitNL_append c 150 h s]

set_option maxRecDepth 4000 in
/-- C6 witness: appending a CxOne marker after 150 complete lines does
not change the detection result. -/
theorem c6_witness :
    150 ≤ countNL (List.replicate 150 '\n') ∧
    detect_log_type (List.replicate 150 '\n' ++ pyStr "CxOne") =
      detect_log_type (List.replicate 150 '\n') :=
  ⟨by decide, c6_detector_stability _ _ (by decide)⟩

/-- C7: file-diff symmetry of compare_logs — only_in_1 of a comparison
equals only_in_2 of the swapped comparison and vice versa (files are
matched by basename and reported as the owning side's full normalized
path, so the swapped comparison performs the identical computation). -/
theorem c7_files_diff_symmetry (a b : NormalizedAnalysis) :
    (compare_logs a b).files_diff.only_in_1 = (compare_logs b a).files_diff.only_in_2 ∧
    (compare_logs a b).files_diff.only_in_2 = (compare_logs b a).files_diff.only_in_1 :=
  ⟨rfl, rfl⟩

/-- C8: the scan-mode label computations of the engine-format branch and
of the generic branch of normalize_analysis are extensionally equal on
every combination of the three incremental flags, and both follow the
spec's precedence skipped, then incremental-with-count, then
incremental-unknown-count, then full. -/
theorem c8_scan_mode_branches_equal (skipped is_inc : Bool) (files_changed : Option Nat) :
    engineBranchScanMode skipped is_inc files_changed =
      genericBranchScanMode skipped is_inc files_changed ∧
    engineBranchScanMode skipped is_inc files_changed =
      specScanModeLabel skipped is_inc files_changed := by
  refine ⟨rfl, ?_⟩
  unfold engineBranchScanMode specScanModeLabel
  cases skipped <;> cases is_inc <;> cases files_changed <;> simp

end PresetMgmt
